import Mathlib

/-!
Shallow embedding of the preprocessing, scaling, windowing and evaluation code
of the GCN-LSTM time-series notebook (gcn-lstm-time-series.ipynb).

Matrices are lists of rows (one row per sensor, one column per timestep) over
the rationals.  A 3-d tensor (examples × sensors × window) is a list of
matrices.  Rational division follows Lean's convention `x / 0 = 0`; the places
where the Python code can hit an IEEE division by zero (`scale_data` with a
constant training partition) are additionally embedded with an explicit
IEEE-style value type `NpFloat` so that NaN/inf outcomes are observable.
-/

namespace GcnLstm

/-- entry of a matrix at row `n`, column `t` (0 out of bounds). -/
def entryD (m : List (List ℚ)) (n t : ℕ) : ℚ := (m.getD n []).getD t 0

/-- entry of a 3-d tensor at example `k`, row `n`, column `j` (0 out of bounds). -/
def entryD3 (m : List (List (List ℚ))) (k n j : ℕ) : ℚ :=
  ((m.getD k []).getD n []).getD j 0

/-- number of columns, i.e. numpy `shape[1]`, of a row-major matrix. -/
def ncols (m : List (List ℚ)) : ℕ := (m.headD []).length

/-- `train_test_split(data, train_portion)` from the notebook:
`train_size = int(time_len * train_portion)`; the train partition is the first
`train_size` columns, the test partition the remaining columns.  `np.array`
copies; nothing is written to `data`. -/
def train_test_split (data : List (List ℚ)) (train_portion : ℚ) :
    List (List ℚ) × List (List ℚ) :=
  let time_len := ncols data
  let train_size := (((time_len : ℚ) * train_portion).floor).toNat
  (data.map (fun r => r.take train_size), data.map (fun r => r.drop train_size))

/-- global maximum of a matrix, numpy `train_data.max()` (over a nonempty
array; the default used for an empty array is never reached under the
nonemptiness hypotheses of the theorems below). -/
def matMax (m : List (List ℚ)) : ℚ := m.flatten.foldl max (m.flatten.headD 0)

/-- global minimum of a matrix, numpy `train_data.min()`. -/
def matMin (m : List (List ℚ)) : ℚ := m.flatten.foldl min (m.flatten.headD 0)

/-- `scale_data(train_data, test_data)` from the notebook:
`max_speed = train_data.max(); min_speed = train_data.min()`, then both
partitions are transformed entrywise by `(x - min_speed)/(max_speed - min_speed)`.
This is the exact-rational reading (Lean division; `x / 0 = 0`). -/
def scale_data (train_data test_data : List (List ℚ)) :
    List (List ℚ) × List (List ℚ) :=
  let max_speed := matMax train_data
  let min_speed := matMin train_data
  (train_data.map (fun r => r.map (fun x => (x - min_speed) / (max_speed - min_speed))),
   test_data.map (fun r => r.map (fun x => (x - min_speed) / (max_speed - min_speed))))

/-- an IEEE-style float outcome: a finite rational, NaN, or a signed infinity.
Used to embed the numpy division in `scale_data` faithfully when the divisor
is zero (`0/0 = NaN`, `x/0 = ±inf`). -/
inductive NpFloat where
  | nan : NpFloat
  | posinf : NpFloat
  | neginf : NpFloat
  | fin (q : ℚ) : NpFloat
deriving DecidableEq

/-- numpy elementwise division with IEEE zero-divisor behaviour. -/
def npDiv (a b : ℚ) : NpFloat :=
  if b = 0 then (if a = 0 then .nan else if 0 < a then .posinf else .neginf)
  else .fin (a / b)

/-- `scale_data` again, with the division embedded at IEEE granularity: same
source lines as `scale_data`, used to observe what the code emits when
`max_speed == min_speed`. -/
def scale_data_float (train_data test_data : List (List ℚ)) :
    List (List NpFloat) × List (List NpFloat) :=
  let max_speed := matMax train_data
  let min_speed := matMin train_data
  (train_data.map (fun r => r.map (fun x => npDiv (x - min_speed) (max_speed - min_speed))),
   test_data.map (fun r => r.map (fun x => npDiv (x - min_speed) (max_speed - min_speed))))

/-- number of loop iterations of `range(data.shape[1] - int(seq_len + pre_len - 1))`
in `sequence_data_preparation`: Python subtraction on ints, an empty range when
the bound is not positive. -/
def numWindows (T seq_len pre_len : ℕ) : ℕ :=
  ((T : ℤ) - ((seq_len : ℤ) + (pre_len : ℤ) - 1)).toNat

/-- the input window of the example starting at column `i`:
`a = data[:, i : i + seq_len + pre_len]` followed by `a[:, :seq_len]`. -/
def windowX (data : List (List ℚ)) (seq_len pre_len i : ℕ) : List (List ℚ) :=
  data.map (fun r => (((r.drop i).take (seq_len + pre_len)).take seq_len))

/-- the target of the example starting at column `i`:
`a = data[:, i : i + seq_len + pre_len]` followed by `a[:, -1]` (last column). -/
def windowY (data : List (List ℚ)) (seq_len pre_len i : ℕ) : List ℚ :=
  data.map (fun r => (((r.drop i).take (seq_len + pre_len)).getLastD 0))

/-- `sequence_data_preparation(seq_len, pre_len, train_data, test_data)` from the
notebook: for `i` in `range(shape[1] - int(seq_len + pre_len - 1))` the slice
`a = data[:, i : i+seq_len+pre_len]` contributes `a[:, :seq_len]` to X and
`a[:, -1]` to Y, for the train and the test partition independently.  Returns
`(trainX, trainY, testX, testY)`. -/
def sequence_data_preparation (seq_len pre_len : ℕ)
    (train_data test_data : List (List ℚ)) :
    List (List (List ℚ)) × List (List ℚ) × List (List (List ℚ)) × List (List ℚ) :=
  ((List.range (numWindows (ncols train_data) seq_len pre_len)).map
      (windowX train_data seq_len pre_len),
   (List.range (numWindows (ncols train_data) seq_len pre_len)).map
      (windowY train_data seq_len pre_len),
   (List.range (numWindows (ncols test_data) seq_len pre_len)).map
      (windowX test_data seq_len pre_len),
   (List.range (numWindows (ncols test_data) seq_len pre_len)).map
      (windowY test_data seq_len pre_len))

/-- entrywise scalar multiplication: the notebook's `arr * max_speed` used in
the "Rescale values" cells. -/
def rescale (m : List (List ℚ)) (c : ℚ) : List (List ℚ) :=
  m.map (fun r => r.map (fun x => x * c))

/-- `test_rescref = np.array(testY * max_speed)`. -/
def test_rescref (testY : List (List ℚ)) (max_speed : ℚ) : List (List ℚ) :=
  rescale testY max_speed

/-- `test_rescpred = np.array((yhat) * max_speed)`. -/
def test_rescpred (yhat : List (List ℚ)) (max_speed : ℚ) : List (List ℚ) :=
  rescale yhat max_speed

/-- `testnpred = np.array(testX)[:, :, -1]`: the last speed of the window for
each segment in each sample. -/
def testnpred (testX : List (List (List ℚ))) : List (List ℚ) :=
  testX.map (fun ex => ex.map (fun row => row.getLastD 0))

/-- `testnpredc = (testnpred) * max_speed`. -/
def testnpredc (testX : List (List (List ℚ))) (max_speed : ℚ) : List (List ℚ) :=
  rescale (testnpred testX) max_speed

/-- numpy `arr.shape[-1]` for the 3-d tensor `testX`: the window length. -/
def shapeLast (testX : List (List (List ℚ))) : ℕ :=
  ((testX.headD []).headD []).length

/-- `m.T[j]`: column `j` of a matrix whose rows are examples. -/
def column (m : List (List ℚ)) (j : ℕ) : List ℚ := m.map (fun r => r.getD j 0)

/-- `np.mean` of a vector (Lean convention 0 for the empty list, which the
notebook never hits: there is at least one test example). -/
def meanQ (l : List ℚ) : ℚ := l.sum / l.length

/-- `np.mean(np.abs(a - b))` for two equal-length vectors. -/
def maeQ (a b : List ℚ) : ℚ := meanQ ((a.zip b).map (fun x => |x.1 - x.2|))

/-- the list `seg_mael` built by the performance loop: for `j` in
`range(testX.shape[-1])`, the mean absolute error between column `j` of
`test_rescref` and column `j` of `test_rescpred`. -/
def seg_mael (testX : List (List (List ℚ))) (rescref rescpred : List (List ℚ)) :
    List ℚ :=
  (List.range (shapeLast testX)).map (fun j => maeQ (column rescref j) (column rescpred j))

/-- the list `seg_nmael` built by the performance loop: the mean absolute error
between column `j` of `test_rescref` and column `j` of `testnpredc`. -/
def seg_nmael (testX : List (List (List ℚ))) (rescref npredc : List (List ℚ)) :
    List ℚ :=
  (List.range (shapeLast testX)).map (fun j => maeQ (column rescref j) (column npredc j))

/-- the list `seg_masel` built by the performance loop: the ratio
`seg_mael[-1] / seg_nmael[-1]` when `seg_nmael[-1] != 0`, and `np.NaN`
(embedded as `none`) otherwise. -/
def seg_masel (testX : List (List (List ℚ)))
    (rescref rescpred npredc : List (List ℚ)) : List (Option ℚ) :=
  (List.range (shapeLast testX)).map (fun j =>
    let mael := maeQ (column rescref j) (column rescpred j)
    let nmael := maeQ (column rescref j) (column npredc j)
    if nmael ≠ 0 then some (mael / nmael) else none)

/-- `np.nanmean`: the mean of the non-NaN entries. -/
def nanmean (l : List (Option ℚ)) : ℚ := meanQ (l.filterMap id)

/-! Helper lemmas about list access, slices, and folded extrema. -/

theorem getD_range_map {α : Type} (f : ℕ → α) (W k : ℕ) (d : α) (h : k < W) :
    ((List.range W).map f).getD k d = f k := by
  rw [List.getD_eq_getElem?_getD, List.getElem?_map, List.getElem?_range h]
  rfl

theorem getD_map_of_lt {α β : Type} (f : α → β) (l : List α) (n : ℕ) (d : β) (d' : α)
    (h : n < l.length) : (l.map f).getD n d = f (l.getD n d') := by
  rw [List.getD_eq_getElem?_getD, List.getD_eq_getElem?_getD, List.getElem?_map,
    List.getElem?_eq_getElem h]
  rfl

theorem getD_mem {α : Type} (l : List α) (n : ℕ) (d : α) (h : n < l.length) :
    l.getD n d ∈ l := by
  rw [List.getD_eq_getElem?_getD, List.getElem?_eq_getElem h]
  exact List.getElem_mem h

theorem getD_append_left {α : Type} (l l' : List α) (n : ℕ) (d : α) (h : n < l.length) :
    (l ++ l').getD n d = l.getD n d := by
  rw [List.getD_eq_getElem?_getD, List.getD_eq_getElem?_getD, List.getElem?_append_left h]

theorem getD_slice_take (r : List ℚ) (i m s j : ℕ) (hj : j < s) (hs : s ≤ m)
    (hlen : i + j < r.length) :
    (((r.drop i).take m).take s).getD j 0 = r.getD (i + j) 0 := by
  rw [List.take_take, min_eq_left hs, List.getD_eq_getElem?_getD,
    List.getD_eq_getElem?_getD, List.getElem?_take]
  simp only [hj, if_true]
  rw [List.getElem?_drop]

theorem getLastD_slice (r : List ℚ) (i m : ℕ) (h1 : 1 ≤ m) (h2 : i + m ≤ r.length) :
    ((r.drop i).take m).getLastD 0 = r.getD (i + m - 1) 0 := by
  have hlen : ((r.drop i).take m).length = m := by
    simp only [List.length_take, List.length_drop]
    omega
  rw [List.getLastD_eq_getLast?, List.getLast?_eq_getElem?, hlen,
    List.getElem?_take]
  simp only [Nat.sub_lt (by omega : 0 < m) one_pos, if_true]
  rw [List.getElem?_drop, List.getD_eq_getElem?_getD]
  have he : i + (m - 1) = i + m - 1 := by omega
  rw [he]

theorem le_foldl_max (l : List ℚ) (a : ℚ) : a ≤ l.foldl max a := by
  induction l generalizing a with
  | nil => simp
  | cons h t ih => exact le_trans (le_max_left a h) (ih (max a h))

theorem mem_le_foldl_max (l : List ℚ) (a x : ℚ) (hx : x ∈ l) : x ≤ l.foldl max a := by
  induction l generalizing a with
  | nil => cases hx
  | cons h t ih =>
    rcases List.mem_cons.mp hx with rfl | hmem
    · exact le_trans (le_max_right a x) (le_foldl_max t (max a x))
    · exact ih (max a h) hmem

theorem foldl_min_le (l : List ℚ) (a : ℚ) : l.foldl min a ≤ a := by
  induction l generalizing a with
  | nil => simp
  | cons h t ih => exact le_trans (ih (min a h)) (min_le_left a h)

theorem foldl_min_le_mem (l : List ℚ) (a x : ℚ) (hx : x ∈ l) : l.foldl min a ≤ x := by
  induction l generalizing a with
  | nil => cases hx
  | cons h t ih =>
    rcases List.mem_cons.mp hx with rfl | hmem
    · exact le_trans (foldl_min_le t (min a x)) (min_le_right a x)
    · exact ih (min a h) hmem

theorem entry_le_matMax (m : List (List ℚ)) (r : List ℚ) (x : ℚ) (hr : r ∈ m)
    (hx : x ∈ r) : x ≤ matMax m :=
  mem_le_foldl_max _ _ _ (List.mem_flatten.mpr ⟨r, hr, hx⟩)

theorem matMin_le_entry (m : List (List ℚ)) (r : List ℚ) (x : ℚ) (hr : r ∈ m)
    (hx : x ∈ r) : matMin m ≤ x :=
  foldl_min_le_mem _ _ _ (List.mem_flatten.mpr ⟨r, hr, hx⟩)

theorem matMin_le_matMax (m : List (List ℚ)) : matMin m ≤ matMax m := by
  cases hfl : m.flatten with
  | nil => simp [matMax, matMin, hfl]
  | cons h t =>
    have h1 : matMin m ≤ h := by
      rw [matMin, hfl]
      exact foldl_min_le_mem _ _ _ (List.mem_cons_self h t)
    have h2 : h ≤ matMax m := by
      rw [matMax, hfl]
      exact mem_le_foldl_max _ _ _ (List.mem_cons_self h t)
    exact le_trans h1 h2

theorem entryD_mapmap (f : ℚ → ℚ) (m : List (List ℚ)) (n t : ℕ)
    (hn : n < m.length) (ht : t < (m.getD n []).length) :
    entryD (m.map (fun r => r.map f)) n t = f (entryD m n t) := by
  unfold entryD
  rw [getD_map_of_lt _ _ _ _ [] hn, getD_map_of_lt f _ _ _ 0 ht]

theorem windowX_entry (data : List (List ℚ)) (s p i n j : ℕ)
    (hn : n < data.length) (hj : j < s)
    (hlen : i + j < (data.getD n []).length) :
    ((windowX data s p i).getD n []).getD j 0 = entryD data n (i + j) := by
  unfold windowX entryD
  rw [getD_map_of_lt _ _ _ _ [] hn]
  exact getD_slice_take _ _ _ _ _ hj (Nat.le_add_right s p) hlen

theorem windowY_entry (data : List (List ℚ)) (s p i n : ℕ)
    (hn : n < data.length) (hsp : 1 ≤ s + p)
    (hlen : i + (s + p) ≤ (data.getD n []).length) :
    (windowY data s p i).getD n 0 = entryD data n (i + s + p - 1) := by
  unfold windowY entryD
  rw [getD_map_of_lt _ _ _ _ [] hn, getLastD_slice _ _ _ hsp hlen]
  congr 1
  omega

theorem numWindows_of_ge (T s p : ℕ) (h : s + p ≤ T) (h1 : 1 ≤ s + p) :
    numWindows T s p = T - (s + p - 1) := by
  unfold numWindows
  omega

theorem numWindows_of_lt (T s p : ℕ) (h : T < s + p) (h1 : 1 ≤ s) (h2 : 1 ≤ p) :
    numWindows T s p = 0 := by
  unfold numWindows
  omega

theorem seq_prep_fst (s p : ℕ) (a b : List (List ℚ)) :
    (sequence_data_preparation s p a b).1 =
      (List.range (numWindows (ncols a) s p)).map (windowX a s p) := rfl

theorem seq_prep_snd (s p : ℕ) (a b : List (List ℚ)) :
    (sequence_data_preparation s p a b).2.1 =
      (List.range (numWindows (ncols a) s p)).map (windowY a s p) := rfl

theorem seq_prep_testX (s p : ℕ) (a b : List (List ℚ)) :
    (sequence_data_preparation s p a b).2.2.1 =
      (List.range (numWindows (ncols b) s p)).map (windowX b s p) := rfl

theorem seq_prep_testY (s p : ℕ) (a b : List (List ℚ)) :
    (sequence_data_preparation s p a b).2.2.2 =
      (List.range (numWindows (ncols b) s p)).map (windowY b s p) := rfl

/-- C1: for every observation matrix `data` whose rows all have length
`ncols data = T`, with `seq_len ≥ 1`, `pre_len ≥ 1` and `T ≥ seq_len + pre_len`,
`sequence_data_preparation` produces exactly `T - (seq_len + pre_len - 1)`
train examples, generated in increasing order of start index (the `i`-th
produced example is the one whose window starts at column `i`); the example at
index `i` has input window equal to columns `[i, i + seq_len)` of every row and
target equal to column `i + seq_len + pre_len - 1` of every row. -/
theorem C1_windowing_correct (s p : ℕ) (data other : List (List ℚ))
    (hs : 1 ≤ s) (hp : 1 ≤ p) (hT : s + p ≤ ncols data)
    (hrect : ∀ r ∈ data, r.length = ncols data) :
    (sequence_data_preparation s p data other).1.length = ncols data - (s + p - 1) ∧
    (sequence_data_preparation s p data other).2.1.length = ncols data - (s + p - 1) ∧
    (∀ i < ncols data - (s + p - 1), ∀ n < data.length, ∀ j < s,
      entryD3 (sequence_data_preparation s p data other).1 i n j
        = entryD data n (i + j)) ∧
    (∀ i < ncols data - (s + p - 1), ∀ n < data.length,
      entryD (sequence_data_preparation s p data other).2.1 i n
        = entryD data n (i + s + p - 1)) := by
  have hW : numWindows (ncols data) s p = ncols data - (s + p - 1) :=
    numWindows_of_ge _ _ _ hT (by omega)
  refine ⟨?_, ?_, ?_, ?_⟩
  · rw [seq_prep_fst, List.length_map, List.length_range, hW]
  · rw [seq_prep_snd, List.length_map, List.length_range, hW]
  · intro i hi n hn j hj
    have hrow : (data.getD n []).length = ncols data := hrect _ (getD_mem data n [] hn)
    rw [seq_prep_fst]
    unfold entryD3
    rw [getD_range_map _ _ _ _ (by rw [hW]; exact hi)]
    exact windowX_entry data s p i n j hn hj (by omega)
  · intro i hi n hn
    have hrow : (data.getD n []).length = ncols data := hrect _ (getD_mem data n [] hn)
    rw [seq_prep_snd]
    unfold entryD
    rw [getD_range_map _ _ _ _ (by rw [hW]; exact hi)]
    exact windowY_entry data s p i n hn (by omega) (by omega)

/-- C1 witness: the windowing theorem instantiated with seq_len = 1,
pre_len = 1 on the concrete 1 × 3 matrix [[4, 7, 9]]. -/
theorem C1_windowing_correct_witness :
    (sequence_data_preparation 1 1 [[(4 : ℚ), 7, 9]] []).1.length
        = ncols [[(4 : ℚ), 7, 9]] - (1 + 1 - 1) ∧
    (sequence_data_preparation 1 1 [[(4 : ℚ), 7, 9]] []).2.1.length
        = ncols [[(4 : ℚ), 7, 9]] - (1 + 1 - 1) ∧
    (∀ i < ncols [[(4 : ℚ), 7, 9]] - (1 + 1 - 1),
      ∀ n < ([[(4 : ℚ), 7, 9]] : List (List ℚ)).length, ∀ j < 1,
      entryD3 (sequence_data_preparation 1 1 [[(4 : ℚ), 7, 9]] []).1 i n j
        = entryD [[(4 : ℚ), 7, 9]] n (i + j)) ∧
    (∀ i < ncols [[(4 : ℚ), 7, 9]] - (1 + 1 - 1),
      ∀ n < ([[(4 : ℚ), 7, 9]] : List (List ℚ)).length,
      entryD (sequence_data_preparation 1 1 [[(4 : ℚ), 7, 9]] []).2.1 i n
        = entryD [[(4 : ℚ), 7, 9]] n (i + 1 + 1 - 1)) :=
  C1_windowing_correct 1 1 [[(4 : ℚ), 7, 9]] [] (by decide) (by decide)
    (by decide) (by decide)

/-- C4 counterexample: with seq_len = 1, pre_len = 2 and partitions of T = 2
columns (T < seq_len + pre_len), `sequence_data_preparation` returns the plain
empty tuple — an ordinary value of the same type as any successful result,
with no distinct InsufficientData error or flag anywhere in its return type.
The claim that the zero-example case is surfaced distinctly is therefore false
of the code. -/
theorem C4_silent_empty_counterexample :
    sequence_data_preparation 1 2 [[(0 : ℚ), 1]] [[(0 : ℚ), 1]]
      = ([], [], [], []) := by decide

/-- C4 amended: for every pair of partition matrices whose timestep counts are
smaller than seq_len + pre_len (seq_len ≥ 1, pre_len ≥ 1), the windowing engine
produces zero examples for each partition, returned silently as empty lists in
an ordinary (non-error) result; no distinct InsufficientData signal is
produced. -/
theorem C4_zero_examples_amended (s p : ℕ) (train test : List (List ℚ))
    (hs : 1 ≤ s) (hp : 1 ≤ p)
    (htr : ncols train < s + p) (hte : ncols test < s + p) :
    (sequence_data_preparation s p train test).1 = [] ∧
    (sequence_data_preparation s p train test).2.1 = [] ∧
    (sequence_data_preparation s p train test).2.2.1 = [] ∧
    (sequence_data_preparation s p train test).2.2.2 = [] := by
  have h1 := numWindows_of_lt (ncols train) s p htr hs hp
  have h2 := numWindows_of_lt (ncols test) s p hte hs hp
  refine ⟨?_, ?_, ?_, ?_⟩ <;>
    simp [seq_prep_fst, seq_prep_snd, seq_prep_testX, seq_prep_testY, h1, h2]

/-- C4 witness: the amended statement instantiated on concrete 1 × 2
partitions with seq_len = 1, pre_len = 2. -/
theorem C4_zero_examples_amended_witness :
    (sequence_data_preparation 1 2 [[(3 : ℚ), 5]] [[(2 : ℚ), 4]]).1 = [] ∧
    (sequence_data_preparation 1 2 [[(3 : ℚ), 5]] [[(2 : ℚ), 4]]).2.1 = [] ∧
    (sequence_data_preparation 1 2 [[(3 : ℚ), 5]] [[(2 : ℚ), 4]]).2.2.1 = [] ∧
    (sequence_data_preparation 1 2 [[(3 : ℚ), 5]] [[(2 : ℚ), 4]]).2.2.2 = [] :=
  C4_zero_examples_amended 1 2 [[(3 : ℚ), 5]] [[(2 : ℚ), 4]] (by decide) (by decide)
    (by decide) (by decide)

/-- entry of an `NpFloat` matrix at row `n`, column `t`. -/
def entryDF (m : List (List NpFloat)) (n t : ℕ) : NpFloat := (m.getD n []).getD t .nan

theorem scale_data_fst (a b : List (List ℚ)) :
    (scale_data a b).1
      = a.map (fun r => r.map (fun x => (x - matMin a) / (matMax a - matMin a))) := rfl

theorem scale_data_snd (a b : List (List ℚ)) :
    (scale_data a b).2
      = b.map (fun r => r.map (fun x => (x - matMin a) / (matMax a - matMin a))) := rfl

theorem scale_data_float_fst (a b : List (List ℚ)) :
    (scale_data_float a b).1
      = a.map (fun r => r.map (fun x => npDiv (x - matMin a) (matMax a - matMin a))) := rfl

theorem scale_data_float_snd (a b : List (List ℚ)) :
    (scale_data_float a b).2
      = b.map (fun r => r.map (fun x => npDiv (x - matMin a) (matMax a - matMin a))) := rfl

/-- C3 counterexample: on the constant training partition [[1, 1]] (train max =
train min = 1), `scale_data` does not fail: it returns an ordinary tuple whose
training entries are the IEEE result 0/0 = NaN and whose test entries are
finite-over-zero infinities.  The claim that transform fails with a
DataDegenerate error rather than silently emitting NaN is therefore false of
the code, which has no error path at all. -/
theorem C3_degenerate_counterexample :
    scale_data_float [[(1 : ℚ), 1]] [[(2 : ℚ), 3]]
      = ([[NpFloat.nan, NpFloat.nan]], [[NpFloat.posinf, NpFloat.posinf]]) := by
  rw [Prod.ext_iff]
  constructor
  · rw [scale_data_float_fst]
    norm_num [matMax, matMin, npDiv]
  · rw [scale_data_float_snd]
    norm_num [matMax, matMin, npDiv]

/-- C3 amended: if the training partition is constant (train max equals train
min), `scale_data` does not raise any error; it silently produces NaN for
every entry of the scaled training partition (each entry is the IEEE division
0/0). -/
theorem C3_degenerate_nan_amended (train test : List (List ℚ)) (n t : ℕ)
    (h : matMax train = matMin train)
    (hn : n < train.length) (ht : t < (train.getD n []).length) :
    entryDF (scale_data_float train test).1 n t = NpFloat.nan := by
  rw [scale_data_float_fst]
  unfold entryDF
  rw [getD_map_of_lt _ _ _ _ [] hn,
    getD_map_of_lt _ _ _ NpFloat.nan 0 ht]
  have hr : train.getD n [] ∈ train := getD_mem train n [] hn
  have hx : (train.getD n []).getD t 0 ∈ train.getD n [] := getD_mem _ t 0 ht
  have h1 : (train.getD n []).getD t 0 ≤ matMax train :=
    entry_le_matMax train _ _ hr hx
  have h2 : matMin train ≤ (train.getD n []).getD t 0 :=
    matMin_le_entry train _ _ hr hx
  have hx0 : (train.getD n []).getD t 0 - matMin train = 0 := by
    rw [h] at h1
    linarith
  rw [hx0, h, sub_self]
  simp [npDiv]

/-- C3 witness: the amended statement instantiated on the constant 2 × 2
training partition [[2, 2], [2, 2]] at entry (1, 0). -/
theorem C3_degenerate_nan_amended_witness :
    entryDF (scale_data_float [[(2 : ℚ), 2], [(2 : ℚ), 2]] [[(5 : ℚ)]]).1 1 0
      = NpFloat.nan :=
  C3_degenerate_nan_amended [[(2 : ℚ), 2], [(2 : ℚ), 2]] [[(5 : ℚ)]] 1 0
    (by decide) (by decide) (by decide)

/-- C5 counterexample: fitting on train = [[0, 1]] (min 0, max 1) and
transforming test = [[2]] yields the scaled test partition [[2]], whose entry
2 is not in [0, 1].  The claim that the transform maps the values of both
partitions into [0, 1] is therefore false of the code: only the training
partition is guaranteed to land in [0, 1]. -/
theorem C5_unit_interval_counterexample :
    (scale_data [[(0 : ℚ), 1]] [[(2 : ℚ)]]).2 = [[(2 : ℚ)]] ∧ ¬ ((2 : ℚ) ≤ 1) := by
  constructor
  · rw [scale_data_snd]
    norm_num [matMax, matMin]
  · norm_num

/-- C5 amended: the Scaler fits (min, max) on the training partition only and
applies the same affine transform (x - min) / (max - min) to both partitions;
every scaled training entry lies in [0, 1] (when train max ≠ train min), while
the test partition is transformed with the train-fitted parameters (never
refit) but its values need not land in [0, 1]. -/
theorem C5_scaler_amended (train test : List (List ℚ)) (n t : ℕ)
    (h : matMax train ≠ matMin train)
    (hn : n < train.length) (ht : t < (train.getD n []).length) :
    (0 ≤ entryD (scale_data train test).1 n t ∧
      entryD (scale_data train test).1 n t ≤ 1) ∧
    (scale_data train test).2
      = test.map (fun r => r.map (fun x =>
          (x - matMin train) / (matMax train - matMin train))) := by
  refine ⟨?_, scale_data_snd train test⟩
  rw [scale_data_fst, entryD_mapmap _ _ _ _ hn ht]
  have hr : train.getD n [] ∈ train := getD_mem train n [] hn
  have hx : entryD train n t ∈ train.getD n [] := getD_mem _ t 0 ht
  have h1 : entryD train n t ≤ matMax train := entry_le_matMax train _ _ hr hx
  have h2 : matMin train ≤ entryD train n t := matMin_le_entry train _ _ hr hx
  have hpos : 0 < matMax train - matMin train := by
    have := matMin_le_matMax train
    have : matMin train < matMax train := lt_of_le_of_ne this (Ne.symm h)
    linarith
  constructor
  · exact div_nonneg (by linarith) (le_of_lt hpos)
  · rw [div_le_one hpos]
    linarith

/-- C5 witness: the amended statement instantiated with train = [[0, 1]],
test = [[5]] at training entry (0, 1). -/
theorem C5_scaler_amended_witness :
    (0 ≤ entryD (scale_data [[(0 : ℚ), 1]] [[(5 : ℚ)]]).1 0 1 ∧
      entryD (scale_data [[(0 : ℚ), 1]] [[(5 : ℚ)]]).1 0 1 ≤ 1) ∧
    (scale_data [[(0 : ℚ), 1]] [[(5 : ℚ)]]).2
      = ([[(5 : ℚ)]] : List (List ℚ)).map (fun r => r.map (fun x =>
          (x - matMin [[(0 : ℚ), 1]]) / (matMax [[(0 : ℚ), 1]] - matMin [[(0 : ℚ), 1]]))) :=
  C5_scaler_amended [[(0 : ℚ), 1]] [[(5 : ℚ)]] 0 1 (by decide) (by decide) (by decide)

theorem rescale_mapmap (f : ℚ → ℚ) (l : List (List ℚ)) (c : ℚ) :
    rescale (l.map (fun r => r.map f)) c
      = l.map (fun r => r.map (fun x => f x * c)) := by
  simp [rescale, List.map_map, Function.comp_def]

/-- C6: the reporting inverse multiplies scaled values by max alone (the
training minimum is not re-added): every rescaled training entry equals
(x - min) * max / (max - min) where x is the original entry; in particular for
training data [1, 2, 3, 4, 5] (min = 1, max = 5) the scaled entry at column 2
is transform(3) = 1/2 and its reporting inverse is 1/2 * 5 = 5/2. -/
theorem C6_inverse_report (train test : List (List ℚ)) (n t : ℕ)
    (h : matMax train ≠ matMin train)
    (hn : n < train.length) (ht : t < (train.getD n []).length) :
    entryD (rescale (scale_data train test).1 (matMax train)) n t
      = (entryD train n t - matMin train) * matMax train
          / (matMax train - matMin train) ∧
    entryD (scale_data [[(1 : ℚ), 2, 3, 4, 5]] test).1 0 2 = 1 / 2 ∧
    entryD (rescale (scale_data [[(1 : ℚ), 2, 3, 4, 5]] test).1
        (matMax [[(1 : ℚ), 2, 3, 4, 5]])) 0 2 = 5 / 2 := by
  refine ⟨?_, ?_, ?_⟩
  · rw [scale_data_fst, rescale_mapmap, entryD_mapmap _ _ _ _ hn ht,
      div_mul_eq_mul_div]
  · rw [scale_data_fst]
    norm_num [entryD, matMax, matMin]
  · rw [scale_data_fst]
    norm_num [rescale, entryD, matMax, matMin]

/-- C6 witness: the reporting-inverse theorem instantiated on the spec's
literal training array [1, 2, 3, 4, 5] at entry (0, 2). -/
theorem C6_inverse_report_witness :
    entryD (rescale (scale_data [[(1 : ℚ), 2, 3, 4, 5]] [[(2 : ℚ)]]).1
        (matMax [[(1 : ℚ), 2, 3, 4, 5]])) 0 2
      = (entryD [[(1 : ℚ), 2, 3, 4, 5]] 0 2 - matMin [[(1 : ℚ), 2, 3, 4, 5]])
          * matMax [[(1 : ℚ), 2, 3, 4, 5]]
          / (matMax [[(1 : ℚ), 2, 3, 4, 5]] - matMin [[(1 : ℚ), 2, 3, 4, 5]]) ∧
    entryD (scale_data [[(1 : ℚ), 2, 3, 4, 5]] [[(2 : ℚ)]]).1 0 2 = 1 / 2 ∧
    entryD (rescale (scale_data [[(1 : ℚ), 2, 3, 4, 5]] [[(2 : ℚ)]]).1
        (matMax [[(1 : ℚ), 2, 3, 4, 5]])) 0 2 = 5 / 2 :=
  C6_inverse_report [[(1 : ℚ), 2, 3, 4, 5]] [[(2 : ℚ)]] 0 2 (by decide) (by decide)
    (by decide)

theorem windowX_last (data : List (List ℚ)) (s p i n : ℕ)
    (hn : n < data.length) (hs : 1 ≤ s)
    (hlen : i + s ≤ (data.getD n []).length) :
    ((windowX data s p i).getD n []).getLastD 0 = entryD data n (i + s - 1) := by
  unfold windowX entryD
  rw [getD_map_of_lt _ _ _ _ [] hn, List.take_take,
    min_eq_left (Nat.le_add_right s p), getLastD_slice _ _ _ hs hlen]

theorem testnpredc_entry (s p : ℕ) (train_sc test_sc : List (List ℚ)) (c : ℚ)
    (k n : ℕ) (hs : 1 ≤ s)
    (hrect : ∀ r ∈ test_sc, r.length = ncols test_sc)
    (hk : k < numWindows (ncols test_sc) s p)
    (hn : n < test_sc.length) :
    entryD (testnpredc ((sequence_data_preparation s p train_sc test_sc).2.2.1) c) k n
      = entryD test_sc n (k + s - 1) * c := by
  rw [seq_prep_testX]
  have hrow : (test_sc.getD n []).length = ncols test_sc := hrect _ (getD_mem _ _ _ hn)
  have hks : k + s ≤ (test_sc.getD n []).length := by
    rw [hrow]
    unfold numWindows at hk
    omega
  have hXlen : ((List.range (numWindows (ncols test_sc) s p)).map
      (windowX test_sc s p)).length = numWindows (ncols test_sc) s p := by
    rw [List.length_map, List.length_range]
  have hMk : (testnpred ((List.range (numWindows (ncols test_sc) s p)).map
        (windowX test_sc s p))).getD k []
      = (windowX test_sc s p k).map (fun row => row.getLastD 0) := by
    unfold testnpred
    rw [getD_map_of_lt _ _ _ _ [] (by rw [hXlen]; exact hk),
      getD_range_map _ _ _ _ hk]
  have hM1 : (testnpred ((List.range (numWindows (ncols test_sc) s p)).map
      (windowX test_sc s p))).length = numWindows (ncols test_sc) s p := by
    unfold testnpred
    rw [List.length_map, hXlen]
  have hMrow : ((testnpred ((List.range (numWindows (ncols test_sc) s p)).map
      (windowX test_sc s p))).getD k []).length = test_sc.length := by
    rw [hMk, List.length_map]
    unfold windowX
    rw [List.length_map]
  show entryD ((testnpred ((List.range (numWindows (ncols test_sc) s p)).map
      (windowX test_sc s p))).map (fun r => r.map (fun x => x * c))) k n = _
  rw [entryD_mapmap _ _ _ _ (by rw [hM1]; exact hk) (by rw [hMrow]; exact hn)]
  congr 1
  show ((testnpred ((List.range (numWindows (ncols test_sc) s p)).map
      (windowX test_sc s p))).getD k []).getD n 0 = _
  rw [hMk, getD_map_of_lt _ _ _ 0 []
    (by unfold windowX; rw [List.length_map]; exact hn)]
  exact windowX_last test_sc s p k n hn hs hks

/-- C7: for every test example k and sensor n, the naive-baseline prediction
is the last value of that example's input window (the final column of the
seq_len-long window, i.e. scaled test column k + seq_len - 1), rescaled by the
same reporting inverse (entrywise multiplication by max_speed) that
`test_rescpred` applies to the model predictions. -/
theorem C7_naive_baseline (s p : ℕ) (train_sc test_sc : List (List ℚ)) (c : ℚ)
    (k n : ℕ) (hs : 1 ≤ s)
    (hrect : ∀ r ∈ test_sc, r.length = ncols test_sc)
    (hk : k < numWindows (ncols test_sc) s p)
    (hn : n < test_sc.length) :
    testnpredc ((sequence_data_preparation s p train_sc test_sc).2.2.1) c
      = test_rescpred
          (testnpred ((sequence_data_preparation s p train_sc test_sc).2.2.1)) c ∧
    entryD (testnpredc ((sequence_data_preparation s p train_sc test_sc).2.2.1) c) k n
      = entryD test_sc n (k + s - 1) * c :=
  ⟨rfl, testnpredc_entry s p train_sc test_sc c k n hs hrect hk hn⟩

/-- C7 witness: the naive-baseline theorem instantiated with seq_len = 2,
pre_len = 1 on the 2 × 3 scaled test matrix [[1, 2, 3], [4, 5, 6]] at test
example 0, sensor 1, with reporting factor 3. -/
theorem C7_naive_baseline_witness :
    testnpredc ((sequence_data_preparation 2 1 []
        [[(1 : ℚ), 2, 3], [(4 : ℚ), 5, 6]]).2.2.1) 3
      = test_rescpred (testnpred ((sequence_data_preparation 2 1 []
          [[(1 : ℚ), 2, 3], [(4 : ℚ), 5, 6]]).2.2.1)) 3 ∧
    entryD (testnpredc ((sequence_data_preparation 2 1 []
        [[(1 : ℚ), 2, 3], [(4 : ℚ), 5, 6]]).2.2.1) 3) 0 1
      = entryD [[(1 : ℚ), 2, 3], [(4 : ℚ), 5, 6]] 1 (0 + 2 - 1) * 3 :=
  C7_naive_baseline 2 1 [] [[(1 : ℚ), 2, 3], [(4 : ℚ), 5, 6]] 3 0 1 (by decide)
    (by decide) (by decide) (by decide)

theorem ncols_mapmap (f : ℚ → ℚ) (m : List (List ℚ)) :
    ncols (m.map (fun r => r.map f)) = ncols m := by
  cases m with
  | nil => rfl
  | cons hd tl => simp [ncols]

theorem entryD_rescale (m : List (List ℚ)) (c : ℚ) (k n : ℕ)
    (hk : k < m.length) (hn : n < (m.getD k []).length) :
    entryD (rescale m c) k n = entryD m k n * c := by
  show entryD (m.map (fun r => r.map (fun x => x * c))) k n = _
  rw [entryD_mapmap _ _ _ _ hk hn]

theorem affine_expand (x minv maxv : ℚ) (h : maxv - minv ≠ 0) :
    (x - minv) / (maxv - minv) * maxv
      = x * maxv / (maxv - minv) - minv * maxv / (maxv - minv) := by
  field_simp
  ring

theorem seqprep_testY_entry (s p : ℕ) (a b : List (List ℚ)) (k n : ℕ)
    (hsp : 1 ≤ s + p)
    (hrect : ∀ r ∈ b, r.length = ncols b)
    (hk : k < numWindows (ncols b) s p)
    (hn : n < b.length) :
    entryD (sequence_data_preparation s p a b).2.2.2 k n
      = entryD b n (k + s + p - 1) := by
  rw [seq_prep_testY]
  have hrow : (b.getD n []).length = ncols b := hrect _ (getD_mem b n [] hn)
  show (((List.range (numWindows (ncols b) s p)).map (windowY b s p)).getD k []).getD n 0
      = entryD b n (k + s + p - 1)
  rw [getD_range_map _ _ _ _ hk]
  refine windowY_entry b s p k n hn hsp ?_
  rw [hrow]
  unfold numWindows at hk
  omega

/-- C10: the reference values fed to the Evaluator (test_rescref, the scaled
test targets multiplied by the training max) satisfy
`value = x * max / (max - min) - min * max / (max - min)` where x is the
original test observation at the target column; they coincide with x exactly
when the training minimum is 0; and the naive predictions go through the very
same affine distortion (with x the original last-window observation). -/
theorem C10_rescaled_reference (s p : ℕ) (train test : List (List ℚ)) (k n : ℕ)
    (hs : 1 ≤ s) (hp : 1 ≤ p)
    (h : matMax train ≠ matMin train)
    (hrect : ∀ r ∈ test, r.length = ncols test)
    (hk : k < numWindows (ncols test) s p)
    (hn : n < test.length) :
    entryD (test_rescref ((sequence_data_preparation s p (scale_data train test).1
        (scale_data train test).2).2.2.2) (matMax train)) k n
      = entryD test n (k + s + p - 1) * matMax train / (matMax train - matMin train)
        - matMin train * matMax train / (matMax train - matMin train) ∧
    (matMin train = 0 →
      entryD (test_rescref ((sequence_data_preparation s p (scale_data train test).1
          (scale_data train test).2).2.2.2) (matMax train)) k n
        = entryD test n (k + s + p - 1)) ∧
    entryD (testnpredc ((sequence_data_preparation s p (scale_data train test).1
        (scale_data train test).2).2.2.1) (matMax train)) k n
      = entryD test n (k + s - 1) * matMax train / (matMax train - matMin train)
        - matMin train * matMax train / (matMax train - matMin train) := by
  have hsub : matMax train - matMin train ≠ 0 := sub_ne_zero.mpr h
  have hM2len : (scale_data train test).2.length = test.length := by
    rw [scale_data_snd, List.length_map]
  have hM2ncols : ncols (scale_data train test).2 = ncols test := by
    rw [scale_data_snd, ncols_mapmap]
  have hM2rect : ∀ r ∈ (scale_data train test).2,
      r.length = ncols (scale_data train test).2 := by
    rw [scale_data_snd]
    intro r hr
    rcases List.mem_map.mp hr with ⟨r0, hr0, rfl⟩
    rw [List.length_map, ncols_mapmap]
    exact hrect r0 hr0
  have hk2 : k < numWindows (ncols (scale_data train test).2) s p := by
    rw [hM2ncols]
    exact hk
  have hn2 : n < (scale_data train test).2.length := by
    rw [hM2len]
    exact hn
  have hrow : (test.getD n []).length = ncols test := hrect _ (getD_mem test n [] hn)
  have hM2entry : ∀ t, t < (test.getD n []).length →
      entryD (scale_data train test).2 n t
        = (entryD test n t - matMin train) / (matMax train - matMin train) := by
    intro t ht
    rw [scale_data_snd, entryD_mapmap _ _ _ _ hn ht]
  have htarget : k + s + p - 1 < (test.getD n []).length := by
    rw [hrow]
    unfold numWindows at hk
    omega
  have hlast : k + s - 1 < (test.getD n []).length := by
    rw [hrow]
    unfold numWindows at hk
    omega
  have hYlen : ((sequence_data_preparation s p (scale_data train test).1
      (scale_data train test).2).2.2.2).length
        = numWindows (ncols (scale_data train test).2) s p := by
    rw [seq_prep_testY, List.length_map, List.length_range]
  have hYrow : (((sequence_data_preparation s p (scale_data train test).1
      (scale_data train test).2).2.2.2).getD k []).length
        = (scale_data train test).2.length := by
    rw [seq_prep_testY, getD_range_map _ _ _ _ hk2]
    unfold windowY
    rw [List.length_map]
  have hmain : entryD (test_rescref ((sequence_data_preparation s p
      (scale_data train test).1 (scale_data train test).2).2.2.2) (matMax train)) k n
      = entryD test n (k + s + p - 1) * matMax train / (matMax train - matMin train)
        - matMin train * matMax train / (matMax train - matMin train) := by
    show entryD (rescale ((sequence_data_preparation s p (scale_data train test).1
        (scale_data train test).2).2.2.2) (matMax train)) k n = _
    rw [entryD_rescale _ _ _ _ (by rw [hYlen]; exact hk2) (by rw [hYrow, hM2len]; exact hn),
      seqprep_testY_entry s p _ _ k n (by omega) hM2rect hk2 hn2,
      hM2entry _ htarget, affine_expand _ _ _ hsub]
  refine ⟨hmain, ?_, ?_⟩
  · intro h0
    have hmax0 : matMax train ≠ 0 := by rw [h0] at h; exact h
    rw [hmain, h0, sub_zero, zero_mul, zero_div, sub_zero, mul_div_assoc,
      div_self hmax0, mul_one]
  · rw [testnpredc_entry s p _ _ _ k n hs hM2rect hk2 hn2,
      hM2entry _ hlast, affine_expand _ _ _ hsub]

/-- C10 witness: the rescaled-reference theorem instantiated with
seq_len = 1, pre_len = 1, train = [[1, 5]] (min 1, max 5) and
test = [[2, 3, 4]] at test example 0, sensor 0. -/
theorem C10_rescaled_reference_witness :
    entryD (test_rescref ((sequence_data_preparation 1 1
        (scale_data [[(1 : ℚ), 5]] [[(2 : ℚ), 3, 4]]).1
        (scale_data [[(1 : ℚ), 5]] [[(2 : ℚ), 3, 4]]).2).2.2.2)
        (matMax [[(1 : ℚ), 5]])) 0 0
      = entryD [[(2 : ℚ), 3, 4]] 0 (0 + 1 + 1 - 1) * matMax [[(1 : ℚ), 5]]
          / (matMax [[(1 : ℚ), 5]] - matMin [[(1 : ℚ), 5]])
        - matMin [[(1 : ℚ), 5]] * matMax [[(1 : ℚ), 5]]
          / (matMax [[(1 : ℚ), 5]] - matMin [[(1 : ℚ), 5]]) ∧
    (matMin [[(1 : ℚ), 5]] = 0 →
      entryD (test_rescref ((sequence_data_preparation 1 1
          (scale_data [[(1 : ℚ), 5]] [[(2 : ℚ), 3, 4]]).1
          (scale_data [[(1 : ℚ), 5]] [[(2 : ℚ), 3, 4]]).2).2.2.2)
          (matMax [[(1 : ℚ), 5]])) 0 0
        = entryD [[(2 : ℚ), 3, 4]] 0 (0 + 1 + 1 - 1)) ∧
    entryD (testnpredc ((sequence_data_preparation 1 1
        (scale_data [[(1 : ℚ), 5]] [[(2 : ℚ), 3, 4]]).1
        (scale_data [[(1 : ℚ), 5]] [[(2 : ℚ), 3, 4]]).2).2.2.1)
        (matMax [[(1 : ℚ), 5]])) 0 0
      = entryD [[(2 : ℚ), 3, 4]] 0 (0 + 1 - 1) * matMax [[(1 : ℚ), 5]]
          / (matMax [[(1 : ℚ), 5]] - matMin [[(1 : ℚ), 5]])
        - matMin [[(1 : ℚ), 5]] * matMax [[(1 : ℚ), 5]]
          / (matMax [[(1 : ℚ), 5]] - matMin [[(1 : ℚ), 5]]) :=
  C10_rescaled_reference 1 1 [[(1 : ℚ), 5]] [[(2 : ℚ), 3, 4]] 0 0 (by decide)
    (by decide) (by decide) (by decide) (by decide) (by decide)

/-- C2: the performance loop iterates `for j in range(testX.shape[-1])`, and
`testX.shape[-1]` is the window length seq_len, not the sensor count N — even
though the loop body indexes `test_rescref.T[j]`, which is sensor j's series,
and the code's own comments call the metrics per-segment.  On a concrete run
with 2 sensors and seq_len = 1 (testX of shape 2 × 2 × 1), only one per-sensor
MAE, one naive MAE and one ratio are produced, not the claimed two. -/
theorem C2_evaluator_covers_seq_len_only :
    (([[[(1 : ℚ)], [2]], [[(3 : ℚ)], [4]]] : List (List (List ℚ))).headD []).length
        = 2 ∧
    shapeLast [[[(1 : ℚ)], [2]], [[(3 : ℚ)], [4]]] = 1 ∧
    (seg_mael [[[(1 : ℚ)], [2]], [[(3 : ℚ)], [4]]]
        [[(10 : ℚ), 20], [(30 : ℚ), 40]] [[(11 : ℚ), 19], [(33 : ℚ), 41]]).length = 1 ∧
    (seg_nmael [[[(1 : ℚ)], [2]], [[(3 : ℚ)], [4]]]
        [[(10 : ℚ), 20], [(30 : ℚ), 40]] [[(9 : ℚ), 21], [(30 : ℚ), 42]]).length = 1 ∧
    (seg_masel [[[(1 : ℚ)], [2]], [[(3 : ℚ)], [4]]]
        [[(10 : ℚ), 20], [(30 : ℚ), 40]] [[(11 : ℚ), 19], [(33 : ℚ), 41]]
        [[(9 : ℚ), 21], [(30 : ℚ), 42]]).length = 1 := by
  refine ⟨rfl, rfl, ?_, ?_, ?_⟩ <;>
    simp [seg_mael, seg_nmael, seg_masel, shapeLast]

/-- C8: a sensor whose naive MAE is zero only receives the NaN marker if the
performance loop reaches it, and the loop runs over `range(testX.shape[-1])`
= seq_len indices.  Concretely, with 2 sensors and seq_len = 1, sensor 1 has
naive MAE exactly 0, yet `seg_masel` has a single entry (sensor 0's defined
ratio) and contains no NaN marker at all: the undefined ratio of sensor 1 is
neither marked NaN nor excluded — it simply never exists, so the condition is
not observable as claimed. -/
theorem C8_zero_naive_mae_unmarked :
    maeQ (column [[(1 : ℚ), 5], [(2 : ℚ), 7]] 1)
        (column [[(0 : ℚ), 5], [(0 : ℚ), 7]] 1) = 0 ∧
    (seg_masel [[[(1 : ℚ)], [5]], [[(2 : ℚ)], [7]]]
        [[(1 : ℚ), 5], [(2 : ℚ), 7]] [[(2 : ℚ), 9], [(3 : ℚ), 9]]
        [[(0 : ℚ), 5], [(0 : ℚ), 7]]).length = 1 ∧
    (∀ x ∈ seg_masel [[[(1 : ℚ)], [5]], [[(2 : ℚ)], [7]]]
        [[(1 : ℚ), 5], [(2 : ℚ), 7]] [[(2 : ℚ), 9], [(3 : ℚ), 9]]
        [[(0 : ℚ), 5], [(0 : ℚ), 7]], x ≠ none) := by
  refine ⟨?_, ?_, ?_⟩
  · norm_num [maeQ, meanQ, column]
  · simp [seg_masel, shapeLast]
  · norm_num [seg_masel, shapeLast, maeQ, meanQ, column, List.range_succ]
    simp

/-- a numpy array buffer: a 2-d or a 3-d array value. -/
inductive ArrVal where
  | a2 (v : List (List ℚ)) : ArrVal
  | a3 (v : List (List (List ℚ))) : ArrVal

/-- a store of array buffers; a reference is an index into the store.  This
models the heap of numpy arrays so that non-mutation of inputs and freshness
of outputs are expressible for the preprocessing functions. -/
abbrev Store : Type := List ArrVal

/-- length of a store. -/
def storeLen (σ : Store) : ℕ := List.length σ

/-- read the 2-d buffer at reference `r`. -/
def readA2 (σ : Store) (r : ℕ) : List (List ℚ) :=
  match List.getD σ r (.a2 []) with
  | .a2 v => v
  | .a3 _ => []

/-- append a fresh buffer at the end of the store, returning its reference.
Models a numpy allocation (`np.array(...)`, or the result array of an
elementwise arithmetic expression). -/
def alloc (σ : Store) (v : ArrVal) : Store × ℕ := (σ ++ [v], storeLen σ)

/-- `train_test_split` as a store transformer.  The source reads `data`
(`data.shape`, `data.iloc` slicing) and materializes the two results with
`np.array`, which copies; no write to an existing buffer occurs, so the store
is only extended. -/
def train_test_split_st (σ : Store) (data : ℕ) (train_portion : ℚ) :
    Store × ℕ × ℕ :=
  let res := train_test_split (readA2 σ data) train_portion
  let a1 := alloc σ (.a2 res.1)
  let a2 := alloc a1.1 (.a2 res.2)
  (a2.1, a1.2, a2.2)

/-- `scale_data` as a store transformer.  The source reads the two partitions
(`.max()`, `.min()`, elementwise arithmetic) and materializes two fresh result
arrays; no write to an existing buffer occurs. -/
def scale_data_st (σ : Store) (train test : ℕ) : Store × ℕ × ℕ :=
  let res := scale_data (readA2 σ train) (readA2 σ test)
  let a1 := alloc σ (.a2 res.1)
  let a2 := alloc a1.1 (.a2 res.2)
  (a2.1, a1.2, a2.2)

/-- `sequence_data_preparation` as a store transformer.  The source reads the
two partitions (shape and slicing only) and materializes the four results with
`np.array`, which copies the transient Python lists; no write to an existing
buffer occurs. -/
def sequence_data_preparation_st (σ : Store) (s p : ℕ) (train test : ℕ) :
    Store × ℕ × ℕ × ℕ × ℕ :=
  let res := sequence_data_preparation s p (readA2 σ train) (readA2 σ test)
  let a1 := alloc σ (.a3 res.1)
  let a2 := alloc a1.1 (.a2 res.2.1)
  let a3 := alloc a2.1 (.a3 res.2.2.1)
  let a4 := alloc a3.1 (.a2 res.2.2.2)
  (a4.1, a1.2, a2.2, a3.2, a4.2)

/-- the whole preprocessing pipeline on the store: split, then scale, then
window, exactly as the notebook chains them. -/
def preprocessing_pipeline_st (σ : Store) (data : ℕ) (portion : ℚ) (s p : ℕ) :
    Store × ℕ × ℕ × ℕ × ℕ :=
  let r1 := train_test_split_st σ data portion
  let r2 := scale_data_st r1.1 r1.2.1 r1.2.2
  let r3 := sequence_data_preparation_st r2.1 s p r2.2.1 r2.2.2
  r3

theorem readA2_append_left (σ τ : Store) (r : ℕ) (hr : r < storeLen σ) :
    readA2 (σ ++ τ) r = readA2 σ r := by
  unfold readA2
  rw [getD_append_left _ _ _ _ hr]

theorem split_st_frame (σ : Store) (d r : ℕ) (q : ℚ) (hr : r < storeLen σ) :
    readA2 (train_test_split_st σ d q).1 r = readA2 σ r := by
  show readA2 ((σ ++ [_]) ++ [_]) r = readA2 σ r
  rw [readA2_append_left _ _ _ (by simp [storeLen] at *; omega),
    readA2_append_left _ _ _ hr]

theorem split_st_len (σ : Store) (d : ℕ) (q : ℚ) :
    storeLen (train_test_split_st σ d q).1 = storeLen σ + 2 := by
  show storeLen ((σ ++ [_]) ++ [_]) = _
  simp [storeLen]

theorem scale_st_frame (σ : Store) (a b r : ℕ) (hr : r < storeLen σ) :
    readA2 (scale_data_st σ a b).1 r = readA2 σ r := by
  show readA2 ((σ ++ [_]) ++ [_]) r = readA2 σ r
  rw [readA2_append_left _ _ _ (by simp [storeLen] at *; omega),
    readA2_append_left _ _ _ hr]

theorem scale_st_len (σ : Store) (a b : ℕ) :
    storeLen (scale_data_st σ a b).1 = storeLen σ + 2 := by
  show storeLen ((σ ++ [_]) ++ [_]) = _
  simp [storeLen]

theorem seqprep_st_frame (σ : Store) (s p a b r : ℕ) (hr : r < storeLen σ) :
    readA2 (sequence_data_preparation_st σ s p a b).1 r = readA2 σ r := by
  show readA2 ((((σ ++ [_]) ++ [_]) ++ [_]) ++ [_]) r = readA2 σ r
  rw [readA2_append_left _ _ _ (by simp [storeLen] at *; omega),
    readA2_append_left _ _ _ (by simp [storeLen] at *; omega),
    readA2_append_left _ _ _ (by simp [storeLen] at *; omega),
    readA2_append_left _ _ _ hr]

/-- C9: `train_test_split`, `scale_data` and `sequence_data_preparation` are
pure with respect to their array arguments.  In the store model (every numpy
array a buffer, every operation of the three functions a read or a fresh
`np.array`-style allocation): each function leaves every pre-existing buffer
unchanged, every returned reference is fresh (at or beyond the old store
end), and running the whole split → scale → window pipeline leaves the
Observation Matrix buffer holding exactly its original value. -/
theorem C9_preprocessing_pure (σ : Store) (dataRef trRef teRef r : ℕ)
    (portion : ℚ) (s p : ℕ) (hr : r < storeLen σ) :
    (readA2 (train_test_split_st σ dataRef portion).1 r = readA2 σ r ∧
      storeLen σ ≤ (train_test_split_st σ dataRef portion).2.1 ∧
      storeLen σ ≤ (train_test_split_st σ dataRef portion).2.2) ∧
    (readA2 (scale_data_st σ trRef teRef).1 r = readA2 σ r ∧
      storeLen σ ≤ (scale_data_st σ trRef teRef).2.1 ∧
      storeLen σ ≤ (scale_data_st σ trRef teRef).2.2) ∧
    (readA2 (sequence_data_preparation_st σ s p trRef teRef).1 r = readA2 σ r ∧
      storeLen σ ≤ (sequence_data_preparation_st σ s p trRef teRef).2.1 ∧
      storeLen σ ≤ (sequence_data_preparation_st σ s p trRef teRef).2.2.1 ∧
      storeLen σ ≤ (sequence_data_preparation_st σ s p trRef teRef).2.2.2.1 ∧
      storeLen σ ≤ (sequence_data_preparation_st σ s p trRef teRef).2.2.2.2) ∧
    readA2 (preprocessing_pipeline_st σ dataRef portion s p).1 r = readA2 σ r := by
  refine ⟨⟨split_st_frame σ dataRef r portion hr, le_refl _, by simp [train_test_split_st, alloc, storeLen]⟩,
    ⟨scale_st_frame σ trRef teRef r hr, le_refl _, by simp [scale_data_st, alloc, storeLen]⟩,
    ⟨seqprep_st_frame σ s p trRef teRef r hr, le_refl _,
      by simp [sequence_data_preparation_st, alloc, storeLen],
      by simp [sequence_data_preparation_st, alloc, storeLen],
      by simp [sequence_data_preparation_st, alloc, storeLen]⟩, ?_⟩
  show readA2 (sequence_data_preparation_st (scale_data_st (train_test_split_st σ dataRef portion).1 _ _).1 s p _ _).1 r = readA2 σ r
  rw [seqprep_st_frame _ _ _ _ _ _ (by rw [scale_st_len, split_st_len]; omega),
    scale_st_frame _ _ _ _ (by rw [split_st_len]; omega),
    split_st_frame _ _ _ _ hr]

/-- C9 witness: the purity theorem instantiated on a one-buffer store holding
the 1 × 2 observation matrix [[3, 4]]. -/
theorem C9_preprocessing_pure_witness :
    (readA2 (train_test_split_st [ArrVal.a2 [[(3 : ℚ), 4]]] 0 (1 / 2)).1 0
        = readA2 [ArrVal.a2 [[(3 : ℚ), 4]]] 0 ∧
      storeLen [ArrVal.a2 [[(3 : ℚ), 4]]]
        ≤ (train_test_split_st [ArrVal.a2 [[(3 : ℚ), 4]]] 0 (1 / 2)).2.1 ∧
      storeLen [ArrVal.a2 [[(3 : ℚ), 4]]]
        ≤ (train_test_split_st [ArrVal.a2 [[(3 : ℚ), 4]]] 0 (1 / 2)).2.2) ∧
    (readA2 (scale_data_st [ArrVal.a2 [[(3 : ℚ), 4]]] 0 0).1 0
        = readA2 [ArrVal.a2 [[(3 : ℚ), 4]]] 0 ∧
      storeLen [ArrVal.a2 [[(3 : ℚ), 4]]]
        ≤ (scale_data_st [ArrVal.a2 [[(3 : ℚ), 4]]] 0 0).2.1 ∧
      storeLen [ArrVal.a2 [[(3 : ℚ), 4]]]
        ≤ (scale_data_st [ArrVal.a2 [[(3 : ℚ), 4]]] 0 0).2.2) ∧
    (readA2 (sequence_data_preparation_st [ArrVal.a2 [[(3 : ℚ), 4]]] 1 1 0 0).1 0
        = readA2 [ArrVal.a2 [[(3 : ℚ), 4]]] 0 ∧
      storeLen [ArrVal.a2 [[(3 : ℚ), 4]]]
        ≤ (sequence_data_preparation_st [ArrVal.a2 [[(3 : ℚ), 4]]] 1 1 0 0).2.1 ∧
      storeLen [ArrVal.a2 [[(3 : ℚ), 4]]]
        ≤ (sequence_data_preparation_st [ArrVal.a2 [[(3 : ℚ), 4]]] 1 1 0 0).2.2.1 ∧
      storeLen [ArrVal.a2 [[(3 : ℚ), 4]]]
        ≤ (sequence_data_preparation_st [ArrVal.a2 [[(3 : ℚ), 4]]] 1 1 0 0).2.2.2.1 ∧
      storeLen [ArrVal.a2 [[(3 : ℚ), 4]]]
        ≤ (sequence_data_preparation_st [ArrVal.a2 [[(3 : ℚ), 4]]] 1 1 0 0).2.2.2.2) ∧
    readA2 (preprocessing_pipeline_st [ArrVal.a2 [[(3 : ℚ), 4]]] 0 (1 / 2) 1 1).1 0
      = readA2 [ArrVal.a2 [[(3 : ℚ), 4]]] 0 :=
  C9_preprocessing_pure [ArrVal.a2 [[(3 : ℚ), 4]]] 0 0 0 0 (1 / 2) 1 1
    (by simp [storeLen])

end GcnLstm
